import Mathlib

/-!
Verification development for the `url-shortener` service
(`app/models.py`, `app/utils.py`, `app/main.py`).

The Python dictionaries are embedded as insertion-ordered association
lists with string keys: `d[k] = v` replaces the value at the first
occurrence of `k` or appends a fresh entry at the end, matching CPython
dict semantics (insertion order preserved, keys unique when built through
the store operations). Timestamps (`datetime.utcnow()`) are modelled as an
explicit `Nat` parameter `now` threaded into the inserting operation.
-/

/-- Association-list model of a Python `dict` with `String` keys. -/
abbrev Dict (α : Type) := List (String × α)

/-- `d.get(k)`: value at the first entry for key `k`, if any. -/
def dictGet {α : Type} (d : Dict α) (k : String) : Option α :=
  match d with
  | [] => none
  | p :: rest => if p.1 == k then some p.2 else dictGet rest k

/-- `d[k] = v`: replace the value at the first entry for key `k`,
or append a fresh entry at the end (CPython insertion order). -/
def dictInsert {α : Type} (d : Dict α) (k : String) (v : α) : Dict α :=
  match d with
  | [] => [(k, v)]
  | p :: rest => if p.1 == k then (k, v) :: rest else p :: dictInsert rest k v

/-- `URLMapping` dataclass from `app/models.py` (`created_at` as `Nat`). -/
structure URLMapping where
  original_url : String
  short_code : String
  click_count : Nat
  created_at : Nat
deriving DecidableEq, Repr

/-- Error raised by `store_mapping` (`ValueError("Short code ... already exists")`);
modelled as a discriminated value. -/
inductive StoreError where
  | codeExists
deriving DecidableEq, Repr

/-- State of `ThreadSafeURLStore`: the forward index `_mappings`
(short_code -> URLMapping) and the reverse index `_reverse_mappings`
(original_url -> short_code). The lock is a concurrency artifact with no
sequential content and is not part of the state. -/
structure ThreadSafeURLStore where
  mappings : Dict URLMapping
  reverse_mappings : Dict String
deriving DecidableEq, Repr

namespace ThreadSafeURLStore

/-- `__init__`: both indices start empty. -/
def empty : ThreadSafeURLStore := ⟨[], []⟩

/-- `store_mapping(short_code, original_url)`: fail with `codeExists` when
the code is already a key of the forward index (leaving the state
untouched, as the Python `raise` fires before any mutation); otherwise
create the record with `click_count = 0`, `created_at = now`, and insert
it into both indices. The state after the call is the second component. -/
def store_mapping (s : ThreadSafeURLStore) (short_code original_url : String)
    (now : Nat) : Except StoreError URLMapping × ThreadSafeURLStore :=
  if (dictGet s.mappings short_code).isSome then
    (Except.error StoreError.codeExists, s)
  else
    let mapping : URLMapping :=
      { original_url := original_url, short_code := short_code
        click_count := 0, created_at := now }
    (Except.ok mapping,
      { mappings := dictInsert s.mappings short_code mapping
        reverse_mappings := dictInsert s.reverse_mappings original_url short_code })

/-- `get_mapping(short_code)`: lookup in the forward index. -/
def get_mapping (s : ThreadSafeURLStore) (short_code : String) : Option URLMapping :=
  dictGet s.mappings short_code

/-- `increment_click_count(short_code)`: bump `click_count` by 1 when the
code exists (returning `true`), otherwise leave the store unchanged and
return `false`. -/
def increment_click_count (s : ThreadSafeURLStore) (short_code : String) :
    Bool × ThreadSafeURLStore :=
  match dictGet s.mappings short_code with
  | some m =>
      let bumped : URLMapping := { m with click_count := m.click_count + 1 }
      (true, { s with mappings := dictInsert s.mappings short_code bumped })
  | none => (false, s)

/-- `exists(short_code)` (renamed: `exists` is a Lean keyword):
membership check on the forward index. -/
def code_exists (s : ThreadSafeURLStore) (short_code : String) : Bool :=
  (dictGet s.mappings short_code).isSome

/-- `url_already_shortened(original_url)`: reverse-index lookup. -/
def url_already_shortened (s : ThreadSafeURLStore) (original_url : String) :
    Option String :=
  dictGet s.reverse_mappings original_url

/-- Result of `get_stats`; `average_clicks` is the exact rational value of
the Python float division `total_clicks / total_urls`. -/
structure Stats where
  total_urls : Nat
  total_clicks : Nat
  average_clicks : ℚ
deriving DecidableEq, Repr

/-- `get_stats()`: record count, click sum, and guarded average. -/
def get_stats (s : ThreadSafeURLStore) : Stats :=
  let total_urls := s.mappings.length
  let total_clicks := (s.mappings.map (fun p => p.2.click_count)).sum
  { total_urls := total_urls
    total_clicks := total_clicks
    average_clicks :=
      if total_urls > 0 then (total_clicks : ℚ) / (total_urls : ℚ) else 0 }

/-- `clear()`: atomically empty both indices. -/
def clear (_ : ThreadSafeURLStore) : ThreadSafeURLStore := ⟨[], []⟩

end ThreadSafeURLStore

/-!
`app/utils.py`. Strings are manipulated as `List Char`; `validate_url`
works on `url.data`. `urllib.parse.urlparse` is modelled only for inputs
that start with a literal `http://` or `https://`, which `validate_url`
guarantees before calling it (it prepends `http://` otherwise).
-/

/-- `string.ascii_letters + string.digits`: the alphabet of `generate_short_code`. -/
def characters : List Char :=
  "abcdefghijklmnopqrstuvwxyzABCDEFGHIJKLMNOPQRSTUVWXYZ0123456789".data

/-- `generate_short_code(length=6)`. `random.choice(characters)` is modelled
by an arbitrary index stream `pick`, reduced modulo the alphabet size, so
every draw is some element of `characters`. -/
def generate_short_code (pick : Nat → Nat) (length : Nat := 6) : String :=
  String.mk ((List.range length).map
    (fun i => characters.getD (pick i % characters.length) 'a'))

/-- Python `str.isalnum` restricted to ASCII (`[a-zA-Z0-9]`), the only
characters the service's own generator and regex deal in. -/
def pyIsAlnum (l : List Char) : Bool :=
  !l.isEmpty && l.all Char.isAlphanum

/-- `is_valid_short_code(code)`: non-empty, exactly 6 characters, alphanumeric. -/
def is_valid_short_code (code : String) : Bool :=
  if code.data.isEmpty then false
  else if code.data.length ≠ 6 then false
  else pyIsAlnum code.data

/-- Whitespace stripped by `str.strip()` (ASCII fragment). -/
def isPySpace (c : Char) : Bool :=
  c == ' ' || c == '\t' || c == '\n' || c == '\r' || c == '\x0b' || c == '\x0c'

/-- `str.strip()`: drop leading and trailing whitespace. -/
def pyStrip (l : List Char) : List Char :=
  ((l.dropWhile isPySpace).reverse.dropWhile isPySpace).reverse

/-- `listStartsWith l p`: `l.startswith(p)` on character lists. -/
def listStartsWith : List Char → List Char → Bool
  | _, [] => true
  | [], _ :: _ => false
  | c :: cs, p :: ps => c == p && listStartsWith cs ps

/-- `url.startswith(('http://', 'https://'))`. -/
def startsHttpOrHttps (l : List Char) : Bool :=
  listStartsWith l "http://".data || listStartsWith l "https://".data

/-- Bytes `urlsplit` removes from the URL before parsing (`\t`, `\r`, `\n`). -/
def isRemovedByte (c : Char) : Bool :=
  c == '\t' || c == '\r' || c == '\n'

/-- `urlparse` netloc extraction from the part after `scheme://`:
strip the removed bytes, then take up to the first `/`, `?` or `#`. -/
def extractNetloc (rest : List Char) : List Char :=
  (rest.filter (fun c => !isRemovedByte c)).takeWhile
    (fun c => !(c == '/' || c == '?' || c == '#'))

/-- `urlparse(url)` specialised to `validate_url`'s call site, where `url`
always starts with `http://` or `https://`: returns `(scheme, netloc)`. -/
def parseSchemeNetloc (u : List Char) : List Char × List Char :=
  if listStartsWith u "https://".data then
    ("https".data, extractNetloc (u.drop 8))
  else if listStartsWith u "http://".data then
    ("http".data, extractNetloc (u.drop 7))
  else ([], [])

/-- `urlsplit`'s eager IPv6 check: a `[` without `]` (or vice versa) in the
netloc raises `ValueError`, landing in `validate_url`'s `except` branch. -/
def bracketMismatch (netloc : List Char) : Bool :=
  (netloc.contains '[' && !netloc.contains ']') ||
  (netloc.contains ']' && !netloc.contains '[')

/-- A character matched by `[a-zA-Z0-9-]` in the domain regex. -/
def isLabelChar (c : Char) : Bool :=
  c.isAlphanum || c == '-'

/-- One domain label per the regex
`[a-zA-Z0-9]([a-zA-Z0-9-]{0,61}[a-zA-Z0-9])?`: a single alphanumeric
character, or 2 to 63 characters with alphanumeric ends and
`[a-zA-Z0-9-]` in between. -/
def isDomainLabel (l : List Char) : Bool :=
  match l with
  | [] => false
  | [c] => c.isAlphanum
  | c :: rest =>
    c.isAlphanum && rest.length ≤ 62 && rest.dropLast.all isLabelChar &&
      (match rest.getLast? with
       | some d => d.isAlphanum
       | none => false)

/-- Split a character list on a separator (like `str.split`). -/
def splitOnChar (sep : Char) : List Char → List (List Char)
  | [] => [[]]
  | c :: rest =>
    match splitOnChar sep rest with
    | [] => if c == sep then [[], []] else [[c]]
    | h :: t => if c == sep then [] :: h :: t else (c :: h) :: t

/-- The domain regex `^label(\.label)*$`: every dot-separated piece is a
valid label (empty pieces, leading/trailing dots and empty domains fail). -/
def domainPatternMatch (domain : List Char) : Bool :=
  (splitOnChar '.' domain).all isDomainLabel

/-- The blocklist `['localhost', '127.0.0.1', '0.0.0.0']`. -/
def blockedHosts : List (List Char) :=
  ["localhost".data, "127.0.0.1".data, "0.0.0.0".data]

/-- The `try` block of `validate_url`, applied to the scheme-normalized URL:
parse, check scheme, netloc presence, domain format and the blocklist;
on success return the normalized URL itself. -/
def parseChecks (u2 : List Char) : Bool × List Char :=
  if bracketMismatch (parseSchemeNetloc u2).2 then
    (false, "Invalid URL format: Invalid IPv6 URL".data)
  else if !((parseSchemeNetloc u2).1 == "http".data ||
      (parseSchemeNetloc u2).1 == "https".data) then
    (false, "URL must use http or https protocol".data)
  else if (parseSchemeNetloc u2).2.isEmpty then
    (false, "URL must contain a valid domain".data)
  else if !domainPatternMatch
      ((parseSchemeNetloc u2).2.takeWhile (fun c => !(c == ':'))) then
    (false, "URL contains invalid domain format".data)
  else if blockedHosts.contains
      (((parseSchemeNetloc u2).2.takeWhile (fun c => !(c == ':'))).map Char.toLower) then
    (false, "Cannot shorten localhost URLs".data)
  else (true, u2)

/-- `validate_url(url)` on character lists: emptiness, strip, length
bounds, scheme defaulting, then `parseChecks`. On success the second
component is the normalized URL; on failure it is the error message. -/
def validateUrlCore (s : List Char) : Bool × List Char :=
  if s.isEmpty then (false, "URL is required and must be a string".data)
  else if (pyStrip s).isEmpty then (false, "URL cannot be empty".data)
  else if (pyStrip s).length < 4 then (false, "URL is too short".data)
  else if (pyStrip s).length > 2048 then
    (false, "URL is too long (max 2048 characters)".data)
  else parseChecks
    (if startsHttpOrHttps (pyStrip s) then pyStrip s
     else "http://".data ++ pyStrip s)

/-- `validate_url` on `String`s. -/
def validate_url (url : String) : Bool × String :=
  let r := validateUrlCore url.data
  (r.1, String.mk r.2)

/-!
`app/main.py` handlers, modelled after request parsing / URL validation.
Randomness is an explicit candidate-code stream `gen : Nat → String`
(the `i`-th call of `generate_short_code` in the retry loop); a `Bool`
flag records whether the handler consulted the store.
-/

/-- Outcome of `POST /api/shorten` past URL validation: HTTP 200
("URL was already shortened"), 201 (created), or the two 500 branches
(retry loop exhausted; `ValueError` from `store_mapping`). -/
inductive ShortenResult where
  | alreadyShortened (code : String)
  | created (code : String)
  | genExhausted500
  | storeError500
deriving DecidableEq, Repr

/-- The `try ... except ValueError` around `store_mapping` in the shorten
handler: 201 with the new code on success, 500 on the `codeExists` race. -/
def finishInsert (short_code : String) :
    Except StoreError URLMapping × ThreadSafeURLStore →
      ShortenResult × ThreadSafeURLStore
  | (Except.ok _, s2) => (ShortenResult.created short_code, s2)
  | (Except.error _, s2) => (ShortenResult.storeError500, s2)

/-- `shorten_url` after validation: idempotency check via the reverse
index, then up to `max_attempts = 10` candidate codes, taking the first
that does not exist (the `for ... else` returns 500 when all 10 collide),
then `store_mapping`. Returns the response and the resulting store. -/
def shorten_url (s : ThreadSafeURLStore) (normalized_url : String)
    (gen : Nat → String) (now : Nat) : ShortenResult × ThreadSafeURLStore :=
  match s.url_already_shortened normalized_url with
  | some existing_code => (ShortenResult.alreadyShortened existing_code, s)
  | none =>
    match ((List.range 10).map gen).find? (fun c => !s.code_exists c) with
    | none => (ShortenResult.genExhausted500, s)
    | some short_code =>
      finishInsert short_code (s.store_mapping short_code normalized_url now)

/-- Response of `GET /<short_code>`: both failure shapes are HTTP 404. -/
inductive RedirectResult where
  | invalidFormat404
  | notFound404
  | redirect302 (url : String)
deriving DecidableEq, Repr

/-- `redirect_to_url`: format gate, lookup, click increment, 302.
The final `Bool` is true iff the handler consulted the store. -/
def redirect_to_url (s : ThreadSafeURLStore) (short_code : String) :
    RedirectResult × ThreadSafeURLStore × Bool :=
  if !is_valid_short_code short_code then
    (RedirectResult.invalidFormat404, s, false)
  else
    match s.get_mapping short_code with
    | none => (RedirectResult.notFound404, s, true)
    | some m =>
      (RedirectResult.redirect302 m.original_url,
        (s.increment_click_count short_code).2, true)

/-- Response of `GET /api/stats/<short_code>`. -/
inductive StatsResult where
  | invalidFormat404
  | notFound404
  | ok200 (short_code original_url : String) (click_count : Nat) (created_at : Nat)
deriving DecidableEq, Repr

/-- `get_stats` endpoint (read-only): format gate, then lookup.
The `Bool` is true iff the handler consulted the store. -/
def get_stats_endpoint (s : ThreadSafeURLStore) (short_code : String) :
    StatsResult × Bool :=
  if !is_valid_short_code short_code then
    (StatsResult.invalidFormat404, false)
  else
    match s.get_mapping short_code with
    | none => (StatsResult.notFound404, true)
    | some m =>
      (StatsResult.ok200 short_code m.original_url m.click_count m.created_at, true)

/-!
Mutating store operations as a step type, for reachability and frame
properties. The read operations do not change the state.
-/

/-- One mutating call on the store. -/
inductive Op where
  | insert (short_code original_url : String) (now : Nat)
  | increment (short_code : String)
  | clear
deriving DecidableEq, Repr

/-- The state after one operation (a failed insert leaves the state as is). -/
def applyOp (s : ThreadSafeURLStore) : Op → ThreadSafeURLStore
  | Op.insert c u t => (s.store_mapping c u t).2
  | Op.increment c => (s.increment_click_count c).2
  | Op.clear => s.clear

/-- Run a sequence of operations from the freshly initialized store. -/
def runOps (ops : List Op) : ThreadSafeURLStore :=
  ops.foldl applyOp ThreadSafeURLStore.empty

/-- The URLs passed to insert operations in a sequence. -/
def insertedUrls : List Op → List String
  | [] => []
  | Op.insert _ u _ :: rest => u :: insertedUrls rest
  | Op.increment _ :: rest => insertedUrls rest
  | Op.clear :: rest => insertedUrls rest

/-- Store states reachable by any sequence of store operations. -/
inductive Reachable : ThreadSafeURLStore → Prop where
  | init : Reachable ThreadSafeURLStore.empty
  | step_insert {s : ThreadSafeURLStore} (c u : String) (t : Nat) :
      Reachable s → Reachable (s.store_mapping c u t).2
  | step_increment {s : ThreadSafeURLStore} (c : String) :
      Reachable s → Reachable (s.increment_click_count c).2
  | step_clear {s : ThreadSafeURLStore} :
      Reachable s → Reachable s.clear

/-- `increment_click_count` called `n` times in sequence on `short_code`. -/
def iterIncrement (s : ThreadSafeURLStore) (short_code : String) :
    Nat → ThreadSafeURLStore
  | 0 => s
  | n + 1 => ((iterIncrement s short_code n).increment_click_count short_code).2

/-- A store holding the single record of the spec's concrete scenario. -/
def sampleStore : ThreadSafeURLStore :=
  (ThreadSafeURLStore.empty.store_mapping "abc123" "https://example.com" 0).2

/-- A degenerate candidate-code stream: every draw is `"abc123"`. -/
def gen0 : Nat → String := fun _ => "abc123"

/-- A 2042-character URL without scheme: 12 characters of host and slash,
then a 2030-character path. It passes `validate_url` (2042 ≤ 2048), but
the normalized result is 2049 characters long. -/
def longInput : List Char := "example.com/".data ++ List.replicate 2030 'a'

/-- Bidirectional index consistency as the code actually maintains it:
every forward entry stores its own key as `short_code` and its
`original_url` is a key of the reverse index; every reverse entry points
to a live forward record whose `original_url` is that key. (The stronger
`reverse[record.original_url] = record.short_code` fails once two codes
were inserted for one URL.) -/
def StoreInv (s : ThreadSafeURLStore) : Prop :=
  (∀ c r, s.get_mapping c = some r →
    r.short_code = c ∧ (s.url_already_shortened r.original_url).isSome = true) ∧
  (∀ u c, s.url_already_shortened u = some c →
    ∃ r, s.get_mapping c = some r ∧ r.original_url = u)

/-!
Theorems. First the dictionary lemmas and small facts about the store
operations that several claim proofs share.
-/

theorem dictGet_dictInsert_self {α : Type} (d : Dict α) (k : String) (v : α) :
    dictGet (dictInsert d k v) k = some v := by
  induction d with
  | nil => simp [dictGet, dictInsert]
  | cons p rest ih =>
    by_cases h : p.1 = k
    · simp [dictGet, dictInsert, h]
    · simp only [dictInsert, beq_iff_eq, h, if_false, dictGet, ih]

theorem dictGet_dictInsert_ne {α : Type} (d : Dict α) (k k' : String) (v : α)
    (hne : k' ≠ k) : dictGet (dictInsert d k v) k' = dictGet d k' := by
  induction d with
  | nil => simp [dictGet, dictInsert, Ne.symm hne]
  | cons p rest ih =>
    simp only [dictInsert]
    by_cases h : p.1 = k
    · rw [if_pos (by simp [h])]
      simp [dictGet, h, Ne.symm hne]
    · rw [if_neg (by simp [h])]
      simp [dictGet, ih]

example : ThreadSafeURLStore.get_stats ThreadSafeURLStore.empty = ⟨0, 0, 0⟩ := by decide

example :
    (ThreadSafeURLStore.store_mapping ThreadSafeURLStore.empty "abc123"
      "https://example.com" 5).1.toOption =
      some ⟨"https://example.com", "abc123", 0, 5⟩ := by decide

example : validate_url "example.com" = (true, "http://example.com") := by decide

example : validate_url "  https://Example.com/path?q=1  " =
    (true, "https://Example.com/path?q=1") := by decide

example : (validate_url "http://localhost/x").1 = false := by decide

example : (validate_url "ab").1 = false := by decide

example : (validate_url "http://-bad-.com").1 = false := by decide

example : is_valid_short_code "abc123" = true := by decide

example : is_valid_short_code "abc12" = false := by decide

example : is_valid_short_code "abc12!" = false := by decide

theorem store_mapping_taken {s : ThreadSafeURLStore} {c u : String} {t : Nat}
    (hex : (dictGet s.mappings c).isSome = true) :
    s.store_mapping c u t = (Except.error StoreError.codeExists, s) := by
  unfold ThreadSafeURLStore.store_mapping
  rw [if_pos hex]

theorem store_mapping_fresh {s : ThreadSafeURLStore} {c u : String} {t : Nat}
    (hex : (dictGet s.mappings c).isSome = false) :
    s.store_mapping c u t =
      (Except.ok ⟨u, c, 0, t⟩,
        ⟨dictInsert s.mappings c ⟨u, c, 0, t⟩,
         dictInsert s.reverse_mappings u c⟩) := by
  unfold ThreadSafeURLStore.store_mapping
  rw [if_neg (by simp [hex])]

theorem increment_none {s : ThreadSafeURLStore} {c : String}
    (h : dictGet s.mappings c = none) :
    s.increment_click_count c = (false, s) := by
  unfold ThreadSafeURLStore.increment_click_count
  rw [h]

theorem increment_some {s : ThreadSafeURLStore} {c : String} {m : URLMapping}
    (h : dictGet s.mappings c = some m) :
    s.increment_click_count c =
      (true, { s with mappings := dictInsert s.mappings c { m with click_count := m.click_count + 1 } }) := by
  unfold ThreadSafeURLStore.increment_click_count
  rw [h]

theorem store_mapping_snd_taken {s : ThreadSafeURLStore} {c u : String} {t : Nat}
    (hex : (dictGet s.mappings c).isSome = true) :
    (s.store_mapping c u t).2 = s := by
  rw [store_mapping_taken hex]

theorem store_mapping_snd_fresh {s : ThreadSafeURLStore} {c u : String} {t : Nat}
    (hex : (dictGet s.mappings c).isSome = false) :
    (s.store_mapping c u t).2 =
      ⟨dictInsert s.mappings c ⟨u, c, 0, t⟩,
       dictInsert s.reverse_mappings u c⟩ := by
  rw [store_mapping_fresh hex]

theorem get_mapping_after_fresh {s : ThreadSafeURLStore} {c u : String} {t : Nat}
    (hex : (dictGet s.mappings c).isSome = false) (c' : String) :
    (s.store_mapping c u t).2.get_mapping c' =
      dictGet (dictInsert s.mappings c ⟨u, c, 0, t⟩) c' := by
  rw [store_mapping_fresh hex]
  rfl

theorem reverse_after_fresh {s : ThreadSafeURLStore} {c u : String} {t : Nat}
    (hex : (dictGet s.mappings c).isSome = false) (u' : String) :
    (s.store_mapping c u t).2.url_already_shortened u' =
      dictGet (dictInsert s.reverse_mappings u c) u' := by
  rw [store_mapping_fresh hex]
  rfl

theorem increment_snd_none {s : ThreadSafeURLStore} {c : String}
    (h : dictGet s.mappings c = none) :
    (s.increment_click_count c).2 = s := by
  rw [increment_none h]

theorem get_mapping_after_increment {s : ThreadSafeURLStore} {c : String}
    {m : URLMapping} (h : dictGet s.mappings c = some m) (c' : String) :
    (s.increment_click_count c).2.get_mapping c' =
      dictGet (dictInsert s.mappings c { m with click_count := m.click_count + 1 }) c' := by
  rw [increment_some h]
  rfl

theorem reverse_after_increment (s : ThreadSafeURLStore) (c u' : String) :
    (s.increment_click_count c).2.url_already_shortened u' =
      s.url_already_shortened u' := by
  cases h : dictGet s.mappings c
  · rw [increment_snd_none h]
  · rw [increment_some h]
    rfl

theorem shorten_url_already {s : ThreadSafeURLStore} {u ec : String}
    {gen : Nat → String} {t : Nat} (h : s.url_already_shortened u = some ec) :
    shorten_url s u gen t = (ShortenResult.alreadyShortened ec, s) := by
  unfold shorten_url
  rw [h]

theorem shorten_url_exhausted {s : ThreadSafeURLStore} {u : String}
    {gen : Nat → String} {t : Nat} (h1 : s.url_already_shortened u = none)
    (h2 : ((List.range 10).map gen).find? (fun x => !s.code_exists x) = none) :
    shorten_url s u gen t = (ShortenResult.genExhausted500, s) := by
  unfold shorten_url
  rw [h1, h2]

theorem shorten_url_race {s : ThreadSafeURLStore} {u code : String}
    {gen : Nat → String} {t : Nat} (h1 : s.url_already_shortened u = none)
    (h2 : ((List.range 10).map gen).find? (fun x => !s.code_exists x) = some code)
    (hex : (dictGet s.mappings code).isSome = true) :
    shorten_url s u gen t = (ShortenResult.storeError500, s) := by
  unfold shorten_url
  rw [h1, h2]
  show finishInsert code (s.store_mapping code u t) = _
  rw [store_mapping_taken hex]
  rfl

theorem shorten_url_created {s : ThreadSafeURLStore} {u code : String}
    {gen : Nat → String} {t : Nat} (h1 : s.url_already_shortened u = none)
    (h2 : ((List.range 10).map gen).find? (fun x => !s.code_exists x) = some code)
    (hex : (dictGet s.mappings code).isSome = false) :
    shorten_url s u gen t = (ShortenResult.created code,
      ⟨dictInsert s.mappings code ⟨u, code, 0, t⟩,
       dictInsert s.reverse_mappings u code⟩) := by
  unfold shorten_url
  rw [h1, h2]
  show finishInsert code (s.store_mapping code u t) = _
  rw [store_mapping_fresh hex]
  rfl

theorem get_mapping_iterIncrement (s : ThreadSafeURLStore) (c : String)
    (m : URLMapping) (h : s.get_mapping c = some m) (n : Nat) :
    (iterIncrement s c n).get_mapping c =
      some { m with click_count := m.click_count + n } := by
  induction n with
  | zero => simpa using h
  | succ n ih =>
    show ((iterIncrement s c n).increment_click_count c).2.get_mapping c = _
    unfold ThreadSafeURLStore.increment_click_count
    unfold ThreadSafeURLStore.get_mapping at ih ⊢
    rw [ih]
    simp only [dictGet_dictInsert_self]
    rw [Nat.add_assoc]

/-- C3. `store_mapping` fails with `codeExists` exactly when the code is
already a key of the forward index, and a failing call leaves the whole
store (both indices) unchanged, so an existing record is never overwritten. -/
theorem c3_insert_atomic : ∀ (s : ThreadSafeURLStore) (c u : String) (t : Nat),
    ((s.store_mapping c u t).1 = Except.error StoreError.codeExists ↔
      (dictGet s.mappings c).isSome = true) ∧
    ((dictGet s.mappings c).isSome = true → (s.store_mapping c u t).2 = s) := by
  intro s c u t
  by_cases h : (dictGet s.mappings c).isSome
  · simp [ThreadSafeURLStore.store_mapping, h]
  · simp [ThreadSafeURLStore.store_mapping, h]

/-- Witness for C3 at the spec's scenario store. -/
theorem c3_insert_atomic_witness :
    (sampleStore.store_mapping "abc123" "https://other.com" 1).1 =
      Except.error StoreError.codeExists ∧
    (sampleStore.store_mapping "abc123" "https://other.com" 1).2 = sampleStore :=
  ⟨(c3_insert_atomic sampleStore "abc123" "https://other.com" 1).1.mpr (by decide),
   (c3_insert_atomic sampleStore "abc123" "https://other.com" 1).2 (by decide)⟩

/-- C4. `increment_click_count` returns `true` and bumps the record's
`click_count` by exactly 1 when the code exists, returns `false` and
leaves the store untouched when it does not, and `n` sequential calls on
a freshly created record yield `click_count = n`. -/
theorem c4_increment_clicks : ∀ (s : ThreadSafeURLStore) (c : String),
    (∀ m, s.get_mapping c = some m →
      (s.increment_click_count c).1 = true ∧
      (s.increment_click_count c).2.get_mapping c =
        some { m with click_count := m.click_count + 1 }) ∧
    (s.get_mapping c = none → s.increment_click_count c = (false, s)) ∧
    (∀ u t m s', s.store_mapping c u t = (Except.ok m, s') →
      ∀ n, (iterIncrement s' c n).get_mapping c =
        some { m with click_count := n }) := by
  intro s c
  refine ⟨?_, ?_, ?_⟩
  · intro m hm
    unfold ThreadSafeURLStore.get_mapping at hm
    unfold ThreadSafeURLStore.increment_click_count ThreadSafeURLStore.get_mapping
    rw [hm]
    exact ⟨rfl, by simp [dictGet_dictInsert_self]⟩
  · intro hm
    unfold ThreadSafeURLStore.get_mapping at hm
    unfold ThreadSafeURLStore.increment_click_count
    rw [hm]
  · intro u t m s' h n
    unfold ThreadSafeURLStore.store_mapping at h
    by_cases hex : (dictGet s.mappings c).isSome
    · rw [if_pos hex] at h
      simp at h
    · rw [if_neg hex] at h
      simp only [Prod.mk.injEq, Except.ok.injEq] at h
      obtain ⟨hm, hs⟩ := h
      have hget : s'.get_mapping c = some m := by
        rw [← hs, ← hm]
        unfold ThreadSafeURLStore.get_mapping
        exact dictGet_dictInsert_self ..
      have := get_mapping_iterIncrement s' c m hget n
      rw [this, ← hm]
      simp

/-- Witness for C4: the spec scenario — create `abc123`, increment three
times, observe `click_count = 3`. -/
theorem c4_increment_clicks_witness :
    (iterIncrement sampleStore "abc123" 3).get_mapping "abc123" =
      some ⟨"https://example.com", "abc123", 3, 0⟩ :=
  (c4_increment_clicks ThreadSafeURLStore.empty "abc123").2.2
    "https://example.com" 0 ⟨"https://example.com", "abc123", 0, 0⟩ sampleStore rfl 3

/-- C5. `get_stats` reports the record count, the total click sum, their
exact quotient as the average when there is at least one record, `0`
otherwise (no division by zero), and `clear` followed by `get_stats`
yields `{0, 0, 0}` whatever the prior state. -/
theorem c5_stats : ∀ s : ThreadSafeURLStore,
    s.get_stats.total_urls = s.mappings.length ∧
    s.get_stats.total_clicks = (s.mappings.map (fun p => p.2.click_count)).sum ∧
    (s.get_stats.total_urls ≠ 0 →
      s.get_stats.average_clicks * (s.get_stats.total_urls : ℚ) =
        (s.get_stats.total_clicks : ℚ)) ∧
    (s.get_stats.total_urls = 0 → s.get_stats.average_clicks = 0) ∧
    s.clear.get_stats = ⟨0, 0, 0⟩ := by
  intro s
  refine ⟨rfl, rfl, ?_, ?_, rfl⟩
  · intro h
    unfold ThreadSafeURLStore.get_stats at h ⊢
    simp only at h ⊢
    rw [if_pos (Nat.pos_of_ne_zero h)]
    exact div_mul_cancel₀ _ (Nat.cast_ne_zero.mpr h)
  · intro h
    unfold ThreadSafeURLStore.get_stats at h ⊢
    simp only at h ⊢
    rw [if_neg (by omega)]

/-- Witness for C5 at a store with one record and three clicks. -/
theorem c5_stats_witness :
    (iterIncrement sampleStore "abc123" 3).get_stats.total_urls ≠ 0 ∧
    (iterIncrement sampleStore "abc123" 3).get_stats.average_clicks *
      ((iterIncrement sampleStore "abc123" 3).get_stats.total_urls : ℚ) =
      ((iterIncrement sampleStore "abc123" 3).get_stats.total_clicks : ℚ) ∧
    (iterIncrement sampleStore "abc123" 3).clear.get_stats = ⟨0, 0, 0⟩ :=
  ⟨by decide,
   (c5_stats (iterIncrement sampleStore "abc123" 3)).2.2.1 (by decide),
   (c5_stats (iterIncrement sampleStore "abc123" 3)).2.2.2.2⟩

/-- C7. The short-code format gate: both `GET /<code>` and
`GET /api/stats/<code>` consult the store exactly when
`is_valid_short_code` accepts the code (6 alphanumeric characters), and
any other shape is answered with the invalid-format 404 without touching
the store. -/
theorem c7_format_gate : ∀ (s : ThreadSafeURLStore) (code : String),
    (is_valid_short_code code =
      (code.data.length == 6 && code.data.all Char.isAlphanum)) ∧
    ((redirect_to_url s code).2.2 = is_valid_short_code code ∧
     (get_stats_endpoint s code).2 = is_valid_short_code code) ∧
    (is_valid_short_code code = false →
      (redirect_to_url s code).1 = RedirectResult.invalidFormat404 ∧
      (redirect_to_url s code).2.1 = s ∧
      (get_stats_endpoint s code).1 = StatsResult.invalidFormat404) := by
  intro s code
  refine ⟨?_, ?_⟩
  · unfold is_valid_short_code pyIsAlnum
    by_cases h0 : code.data.isEmpty = true
    · rw [if_pos h0, List.isEmpty_iff.mp h0]
      rfl
    · rw [if_neg h0]
      by_cases h1 : code.data.length ≠ 6
      · rw [if_pos h1]
        rw [show (code.data.length == 6) = false from beq_eq_false_iff_ne.mpr h1]
        rfl
      · rw [if_neg h1]
        rw [show (code.data.length == 6) = true from beq_iff_eq.mpr (not_not.mp h1)]
        rw [show code.data.isEmpty = false by
          revert h0; cases code.data.isEmpty <;> simp]
        rfl
  by_cases h : is_valid_short_code code = true
  · refine ⟨⟨?_, ?_⟩, fun hf => by rw [h] at hf; cases hf⟩
    · unfold redirect_to_url
      cases hm : s.get_mapping code <;> simp [h, hm]
    · unfold get_stats_endpoint
      cases hm : s.get_mapping code <;> simp [h, hm]
  · have h' : is_valid_short_code code = false := by
      revert h
      cases is_valid_short_code code <;> simp
    exact ⟨⟨by simp [redirect_to_url, h'], by simp [get_stats_endpoint, h']⟩,
      fun _ => ⟨by simp [redirect_to_url, h'], by simp [redirect_to_url, h'],
        by simp [get_stats_endpoint, h']⟩⟩

/-- Witness for C7: the 3-character code `"abc"` is rejected as 404 by
both endpoints without consulting the store; a well-formed code is
looked up. -/
theorem c7_format_gate_witness :
    (redirect_to_url sampleStore "abc").1 = RedirectResult.invalidFormat404 ∧
    (redirect_to_url sampleStore "abc").2.1 = sampleStore ∧
    (get_stats_endpoint sampleStore "abc").1 = StatsResult.invalidFormat404 ∧
    (redirect_to_url sampleStore "abc123").2.2 = is_valid_short_code "abc123" :=
  ⟨((c7_format_gate sampleStore "abc").2.2 (by decide)).1,
   ((c7_format_gate sampleStore "abc").2.2 (by decide)).2.1,
   ((c7_format_gate sampleStore "abc").2.2 (by decide)).2.2,
   (c7_format_gate sampleStore "abc123").2.1.1⟩

/-- C8. Every generated short code is a 6-character alphanumeric string,
and when the URL is new but all 10 candidate codes of the retry loop
collide with existing codes, the shorten handler reports the HTTP 500
generation failure and leaves the store unchanged. -/
theorem c8_codegen_and_exhaustion :
    (∀ pick : Nat → Nat, (generate_short_code pick).length = 6 ∧
      ∀ c ∈ (generate_short_code pick).data, c.isAlphanum = true) ∧
    (∀ (s : ThreadSafeURLStore) (u : String) (gen : Nat → String) (t : Nat),
      s.url_already_shortened u = none →
      (∀ i, i < 10 → s.code_exists (gen i) = true) →
      shorten_url s u gen t = (ShortenResult.genExhausted500, s)) := by
  constructor
  · intro pick
    constructor
    · rfl
    · intro c hc
      simp only [generate_short_code, List.mem_map, List.mem_range] at hc
      obtain ⟨i, _, hi⟩ := hc
      have hmod : pick i % characters.length < characters.length :=
        Nat.mod_lt _ (by decide)
      rw [← hi, List.getD_eq_getElem _ _ hmod]
      have hall : ∀ x ∈ characters, x.isAlphanum = true := by decide
      exact hall _ (List.getElem_mem _)
  · intro s u gen t h1 h2
    unfold shorten_url
    rw [h1]
    have hfind : ((List.range 10).map gen).find? (fun c => !s.code_exists c) = none := by
      rw [List.find?_eq_none]
      intro x hx
      simp only [List.mem_map, List.mem_range] at hx
      obtain ⟨i, hi, rfl⟩ := hx
      simp [h2 i hi]
    rw [hfind]

/-- Witness for C8: the constant code stream colliding with the one
stored record exhausts the loop and yields the 500 branch. -/
theorem c8_codegen_and_exhaustion_witness :
    (generate_short_code (fun _ => 0)).length = 6 ∧
    shorten_url sampleStore "https://other.com" gen0 7 =
      (ShortenResult.genExhausted500, sampleStore) :=
  ⟨(c8_codegen_and_exhaustion.1 (fun _ => 0)).1,
   c8_codegen_and_exhaustion.2 sampleStore "https://other.com" gen0 7
     (by decide) (fun i _ => show sampleStore.code_exists "abc123" = true by decide)⟩

/-- C9. Frame property of the mutating operations: a record surviving any
single operation keeps its `short_code`, `original_url` and `created_at`;
its `click_count` is bumped by exactly 1 when the operation is an
increment targeted at it and is untouched otherwise — in particular it
never decreases. -/
theorem c9_frame : ∀ (s : ThreadSafeURLStore) (op : Op) (c : String)
    (r r' : URLMapping),
    s.get_mapping c = some r → (applyOp s op).get_mapping c = some r' →
    r'.short_code = r.short_code ∧ r'.original_url = r.original_url ∧
    r'.created_at = r.created_at ∧
    r'.click_count =
      (if op = Op.increment c then r.click_count + 1 else r.click_count) ∧
    r.click_count ≤ r'.click_count := by
  intro s op c r r' hr hr'
  cases op with
  | insert c' u t =>
    simp only [applyOp] at hr'
    by_cases hex : (dictGet s.mappings c').isSome = true
    · rw [store_mapping_snd_taken hex, hr] at hr'
      obtain rfl := Option.some.inj hr'
      simp
    · have hb : (dictGet s.mappings c').isSome = false := by
        revert hex
        cases (dictGet s.mappings c').isSome <;> simp
      rw [get_mapping_after_fresh hb] at hr'
      have hne : c ≠ c' := by
        intro e
        rw [← e] at hb
        unfold ThreadSafeURLStore.get_mapping at hr
        rw [hr] at hb
        cases hb
      rw [dictGet_dictInsert_ne _ _ _ _ hne] at hr'
      unfold ThreadSafeURLStore.get_mapping at hr
      rw [hr] at hr'
      obtain rfl := Option.some.inj hr'
      simp
  | increment c' =>
    simp only [applyOp] at hr'
    cases hm : dictGet s.mappings c' with
    | none =>
      rw [increment_snd_none hm, hr] at hr'
      obtain rfl := Option.some.inj hr'
      have hne : c' ≠ c := by
        intro e
        unfold ThreadSafeURLStore.get_mapping at hr
        rw [← e, hm] at hr
        cases hr
      simp [hne]
    | some m =>
      rw [get_mapping_after_increment hm] at hr'
      by_cases hc : c = c'
      · subst hc
        unfold ThreadSafeURLStore.get_mapping at hr
        rw [hm] at hr
        obtain rfl := Option.some.inj hr
        rw [dictGet_dictInsert_self] at hr'
        obtain rfl := Option.some.inj hr'
        simp
      · rw [dictGet_dictInsert_ne _ _ _ _ hc] at hr'
        unfold ThreadSafeURLStore.get_mapping at hr
        rw [hr] at hr'
        obtain rfl := Option.some.inj hr'
        simp [Ne.symm hc]
  | clear =>
    simp only [applyOp] at hr'
    unfold ThreadSafeURLStore.clear ThreadSafeURLStore.get_mapping at hr'
    simp [dictGet] at hr'

/-- Witness for C9: incrementing `abc123` bumps only its click count. -/
theorem c9_frame_witness :
    sampleStore.get_mapping "abc123" = some ⟨"https://example.com", "abc123", 0, 0⟩ ∧
    (applyOp sampleStore (Op.increment "abc123")).get_mapping "abc123" =
      some ⟨"https://example.com", "abc123", 1, 0⟩ ∧
    (URLMapping.mk "https://example.com" "abc123" 1 0).click_count =
      (if Op.increment "abc123" = Op.increment "abc123"
        then (URLMapping.mk "https://example.com" "abc123" 0 0).click_count + 1
        else (URLMapping.mk "https://example.com" "abc123" 0 0).click_count) :=
  ⟨by decide, by decide,
   (c9_frame sampleStore (Op.increment "abc123") "abc123" _ _
     (by decide) (by decide)).2.2.2.1⟩

/-- C1 counterexample. At the level of store operations the claim fails:
after `store_mapping("c1c1c1", u)` succeeds and its record still exists,
a later `store_mapping("c2c2c2", u)` with the same URL also succeeds and
creates a second record for `u` — the store itself never consults the
reverse index on insert. -/
theorem c1_counterexample :
    (ThreadSafeURLStore.empty.store_mapping "c1c1c1" "https://example.com" 0).1.toOption =
      some ⟨"https://example.com", "c1c1c1", 0, 0⟩ ∧
    ((ThreadSafeURLStore.empty.store_mapping "c1c1c1" "https://example.com" 0).2.store_mapping
        "c2c2c2" "https://example.com" 1).1.toOption =
      some ⟨"https://example.com", "c2c2c2", 0, 1⟩ ∧
    ((ThreadSafeURLStore.empty.store_mapping "c1c1c1" "https://example.com" 0).2.store_mapping
        "c2c2c2" "https://example.com" 1).2.get_mapping "c1c1c1" =
      some ⟨"https://example.com", "c1c1c1", 0, 0⟩ ∧
    ((ThreadSafeURLStore.empty.store_mapping "c1c1c1" "https://example.com" 0).2.store_mapping
        "c2c2c2" "https://example.com" 1).2.get_mapping "c2c2c2" =
      some ⟨"https://example.com", "c2c2c2", 0, 1⟩ := by decide

/-- C1 (amended). Idempotent shortening holds at the handler level: once
`shorten_url` has created code `c` for URL `u`, re-shortening `u` — with
any candidate stream and timestamp — returns the existing code `c` with
HTTP 200 and leaves the store unchanged, because the handler checks the
reverse index before generating codes. -/
theorem c1_idempotent_shorten :
    ∀ (s : ThreadSafeURLStore) (u : String) (gen : Nat → String) (t : Nat)
      (c : String) (s' : ThreadSafeURLStore),
    shorten_url s u gen t = (ShortenResult.created c, s') →
    ∀ (gen' : Nat → String) (t' : Nat),
      shorten_url s' u gen' t' = (ShortenResult.alreadyShortened c, s') := by
  intro s u gen t c s' h gen' t'
  cases h1 : s.url_already_shortened u with
  | some ec => rw [shorten_url_already h1] at h; simp at h
  | none =>
    cases h2 : ((List.range 10).map gen).find? (fun x => !s.code_exists x) with
    | none => rw [shorten_url_exhausted h1 h2] at h; simp at h
    | some code =>
      by_cases hex : (dictGet s.mappings code).isSome = true
      · rw [shorten_url_race h1 h2 hex] at h
        simp at h
      · have hb : (dictGet s.mappings code).isSome = false := by
          revert hex
          cases (dictGet s.mappings code).isSome <;> simp
        rw [shorten_url_created h1 h2 hb] at h
        simp only [Prod.mk.injEq, ShortenResult.created.injEq] at h
        obtain ⟨rfl, rfl⟩ := h
        exact shorten_url_already (dictGet_dictInsert_self s.reverse_mappings u code)

/-- Witness for C1: creating `abc123` for the sample URL, then
re-shortening it, returns the same code and the same store. -/
theorem c1_idempotent_shorten_witness :
    shorten_url sampleStore "https://example.com" gen0 3 =
      (ShortenResult.alreadyShortened "abc123", sampleStore) :=
  c1_idempotent_shorten ThreadSafeURLStore.empty "https://example.com" gen0 0
    "abc123" sampleStore (by decide) gen0 3

/-- C2 counterexample. After inserting two codes for the same URL (which
the store permits), the record for `c1c1c1` still exists but the reverse
index maps its `original_url` to `c2c2c2`, so
`reverse[record.originalURL] == record.code` fails in a reachable state. -/
theorem c2_counterexample :
    ((ThreadSafeURLStore.empty.store_mapping "c1c1c1" "https://example.com" 0).2.store_mapping
        "c2c2c2" "https://example.com" 1).2.get_mapping "c1c1c1" =
      some ⟨"https://example.com", "c1c1c1", 0, 0⟩ ∧
    ((ThreadSafeURLStore.empty.store_mapping "c1c1c1" "https://example.com" 0).2.store_mapping
        "c2c2c2" "https://example.com" 1).2.url_already_shortened "https://example.com" =
      some "c2c2c2" ∧
    "c2c2c2" ≠ "c1c1c1" := by decide

/-- C2 (amended). In every reachable store state the indices are
consistent in the direction the code maintains: each forward entry stores
its key as its `short_code` and its `original_url` is present in the
reverse index, and each reverse entry points at a live record carrying
exactly that URL. (The stronger `reverse[record.originalURL] ==
record.code` fails once a URL has been inserted under two codes.) -/
theorem c2_index_invariant : ∀ s : ThreadSafeURLStore, Reachable s → StoreInv s := by
  intro s h
  induction h with
  | init =>
    refine ⟨?_, ?_⟩
    · intro c r hr
      simp [ThreadSafeURLStore.empty, ThreadSafeURLStore.get_mapping, dictGet] at hr
    · intro u c hr
      simp [ThreadSafeURLStore.empty, ThreadSafeURLStore.url_already_shortened,
        dictGet] at hr
  | @step_insert s c u t hs ih =>
    by_cases hex : (dictGet s.mappings c).isSome = true
    · rw [store_mapping_snd_taken hex]
      exact ih
    · have hb : (dictGet s.mappings c).isSome = false := by
        revert hex
        cases (dictGet s.mappings c).isSome <;> simp
      refine ⟨?_, ?_⟩
      · intro c' r' hr'
        rw [get_mapping_after_fresh hb] at hr'
        by_cases hc : c' = c
        · subst hc
          rw [dictGet_dictInsert_self] at hr'
          obtain rfl := Option.some.inj hr'
          refine ⟨rfl, ?_⟩
          rw [reverse_after_fresh hb]
          show (dictGet (dictInsert s.reverse_mappings u c') u).isSome = true
          rw [dictGet_dictInsert_self]
          rfl
        · rw [dictGet_dictInsert_ne _ _ _ _ hc] at hr'
          obtain ⟨h1, h2⟩ := ih.1 c' r' hr'
          refine ⟨h1, ?_⟩
          rw [reverse_after_fresh hb]
          by_cases hu : r'.original_url = u
          · rw [hu, dictGet_dictInsert_self]
            rfl
          · rw [dictGet_dictInsert_ne _ _ _ _ hu]
            exact h2
      · intro u' c' hr'
        rw [reverse_after_fresh hb] at hr'
        by_cases hu : u' = u
        · subst hu
          rw [dictGet_dictInsert_self] at hr'
          obtain rfl := Option.some.inj hr'
          refine ⟨⟨u', c, 0, t⟩, ?_, rfl⟩
          rw [get_mapping_after_fresh hb]
          exact dictGet_dictInsert_self ..
        · rw [dictGet_dictInsert_ne _ _ _ _ hu] at hr'
          obtain ⟨r, hrm, hru⟩ := ih.2 u' c' hr'
          have hcc : c' ≠ c := by
            intro e
            rw [e] at hrm
            unfold ThreadSafeURLStore.get_mapping at hrm
            rw [hrm] at hb
            simp at hb
          refine ⟨r, ?_, hru⟩
          rw [get_mapping_after_fresh hb, dictGet_dictInsert_ne _ _ _ _ hcc]
          exact hrm
  | @step_increment s c hs ih =>
    cases hm : dictGet s.mappings c with
    | none =>
      rw [increment_snd_none hm]
      exact ih
    | some m =>
      refine ⟨?_, ?_⟩
      · intro c' r' hr'
        rw [get_mapping_after_increment hm] at hr'
        rw [reverse_after_increment]
        by_cases hc : c' = c
        · subst hc
          rw [dictGet_dictInsert_self] at hr'
          obtain rfl := Option.some.inj hr'
          obtain ⟨h1, h2⟩ := ih.1 c' m hm
          exact ⟨h1, h2⟩
        · rw [dictGet_dictInsert_ne _ _ _ _ hc] at hr'
          exact ih.1 c' r' hr'
      · intro u' c' hr'
        rw [reverse_after_increment] at hr'
        obtain ⟨r, hrm, hru⟩ := ih.2 u' c' hr'
        by_cases hc : c' = c
        · subst hc
          unfold ThreadSafeURLStore.get_mapping at hrm
          rw [hm] at hrm
          obtain rfl := Option.some.inj hrm
          refine ⟨{ m with click_count := m.click_count + 1 }, ?_, hru⟩
          rw [get_mapping_after_increment hm]
          exact dictGet_dictInsert_self ..
        · refine ⟨r, ?_, hru⟩
          rw [get_mapping_after_increment hm, dictGet_dictInsert_ne _ _ _ _ hc]
          exact hrm
  | @step_clear s hs ih =>
    refine ⟨?_, ?_⟩
    · intro c r hr
      simp [ThreadSafeURLStore.clear, ThreadSafeURLStore.get_mapping, dictGet] at hr
    · intro u c hr
      simp [ThreadSafeURLStore.clear, ThreadSafeURLStore.url_already_shortened,
        dictGet] at hr

/-- Witness for C2 at the reachable one-record store. -/
theorem c2_index_invariant_witness : StoreInv sampleStore :=
  c2_index_invariant sampleStore
    (Reachable.step_insert "abc123" "https://example.com" 0 Reachable.init)

theorem url_never_inserted (ops : List Op) :
    ∀ (s : ThreadSafeURLStore) (u : String),
      s.url_already_shortened u = none → u ∉ insertedUrls ops →
      (ops.foldl applyOp s).url_already_shortened u = none := by
  induction ops with
  | nil =>
    intro s u h0 _
    exact h0
  | cons op rest ih =>
    intro s u h0 hnot
    cases op with
    | insert c u' t =>
      simp only [insertedUrls, List.mem_cons, not_or] at hnot
      obtain ⟨hne, hrest⟩ := hnot
      rw [List.foldl_cons]
      apply ih _ _ _ hrest
      simp only [applyOp]
      by_cases hex : (dictGet s.mappings c).isSome = true
      · rw [store_mapping_snd_taken hex]
        exact h0
      · have hb : (dictGet s.mappings c).isSome = false := by
          revert hex
          cases (dictGet s.mappings c).isSome <;> simp
        rw [reverse_after_fresh hb, dictGet_dictInsert_ne _ _ _ _ hne]
        exact h0
    | increment c =>
      simp only [insertedUrls] at hnot
      rw [List.foldl_cons]
      apply ih _ _ _ hnot
      simp only [applyOp]
      rw [reverse_after_increment]
      exact h0
    | clear =>
      simp only [insertedUrls] at hnot
      rw [List.foldl_cons]
      apply ih _ _ _ hnot
      rfl

/-- C6. Round trip: a successful `store_mapping(code, url)` yields a
record with `original_url = url`, `click_count = 0` and the call's
timestamp, retrievable via `get_mapping(code)`, and `FindByURL(url)`
returns that code; and for any URL never passed to an insert across a
whole operation sequence, the reverse lookup returns none (matching is
exact-string; the store normalizes nothing). -/
theorem c6_roundtrip :
    (∀ (s : ThreadSafeURLStore) (c u : String) (t : Nat) (m : URLMapping)
        (s' : ThreadSafeURLStore),
      s.store_mapping c u t = (Except.ok m, s') →
      s'.get_mapping c = some m ∧ m.original_url = u ∧ m.click_count = 0 ∧
        m.created_at = t ∧ s'.url_already_shortened u = some c) ∧
    (∀ (ops : List Op) (u : String), u ∉ insertedUrls ops →
      (runOps ops).url_already_shortened u = none) := by
  constructor
  · intro s c u t m s' h
    by_cases hex : (dictGet s.mappings c).isSome = true
    · rw [store_mapping_taken hex] at h
      simp at h
    · have hb : (dictGet s.mappings c).isSome = false := by
        revert hex
        cases (dictGet s.mappings c).isSome <;> simp
      rw [store_mapping_fresh hb] at h
      simp only [Prod.mk.injEq, Except.ok.injEq] at h
      obtain ⟨hm, hs⟩ := h
      refine ⟨?_, ?_, ?_, ?_, ?_⟩
      · rw [← hs, ← hm]
        unfold ThreadSafeURLStore.get_mapping
        exact dictGet_dictInsert_self ..
      · rw [← hm]
      · rw [← hm]
      · rw [← hm]
      · rw [← hs]
        unfold ThreadSafeURLStore.url_already_shortened
        exact dictGet_dictInsert_self ..
  · intro ops u hnot
    exact url_never_inserted ops ThreadSafeURLStore.empty u rfl hnot

/-- Witness for C6: the spec's concrete scenario plus a never-inserted URL. -/
theorem c6_roundtrip_witness :
    (sampleStore.get_mapping "abc123" =
        some ⟨"https://example.com", "abc123", 0, 0⟩ ∧
      sampleStore.url_already_shortened "https://example.com" = some "abc123") ∧
    (runOps [Op.insert "abc123" "https://example.com" 0]).url_already_shortened
      "https://other.com" = none := by
  refine ⟨?_, c6_roundtrip.2 [Op.insert "abc123" "https://example.com" 0]
    "https://other.com" (by decide)⟩
  have h := c6_roundtrip.1 ThreadSafeURLStore.empty "abc123" "https://example.com" 0
    ⟨"https://example.com", "abc123", 0, 0⟩ sampleStore rfl
  exact ⟨h.1, h.2.2.2.2⟩

theorem parseChecks_self {u n : List Char} (h : parseChecks u = (true, n)) :
    n = u := by
  simp only [parseChecks] at h
  split_ifs at h <;> simp only [Prod.mk.injEq] at h
  all_goals first
    | exact absurd h.1 Bool.false_ne_true
    | exact h.2.symm

theorem dropWhile_eq_self_of_head {p : Char → Bool} {l : List Char} {c : Char}
    (hh : l.head? = some c) (hc : p c = false) : l.dropWhile p = l := by
  cases l with
  | nil => cases hh
  | cons a t =>
    obtain rfl := Option.some.inj hh
    simp [List.dropWhile_cons, hc]

theorem head_dropWhile_false {p : Char → Bool} {l : List Char} {c : Char}
    (h : (l.dropWhile p).head? = some c) : p c = false := by
  induction l with
  | nil => cases h
  | cons a t ih =>
    rw [List.dropWhile_cons] at h
    by_cases hp : p a = true
    · rw [if_pos hp] at h
      exact ih h
    · rw [if_neg hp] at h
      obtain rfl := Option.some.inj h
      revert hp
      cases p a <;> simp

theorem getLast_dropWhile {p : Char → Bool} {l : List Char}
    (h : l.dropWhile p ≠ []) : (l.dropWhile p).getLast? = l.getLast? := by
  induction l with
  | nil => simp [List.dropWhile] at h
  | cons a t ih =>
    rw [List.dropWhile_cons] at h ⊢
    by_cases hp : p a = true
    · rw [if_pos hp] at h ⊢
      rw [ih h]
      have ht : t ≠ [] := by
        intro e
        rw [e] at h
        simp [List.dropWhile] at h
      cases t with
      | nil => exact absurd rfl ht
      | cons b t' => rw [List.getLast?_cons_cons]
    · rw [if_neg hp]

theorem pyStrip_head_not_space {s : List Char} {c : Char}
    (h : (pyStrip s).head? = some c) : isPySpace c = false := by
  unfold pyStrip at h
  rw [List.head?_reverse] at h
  have hne : (s.dropWhile isPySpace).reverse.dropWhile isPySpace ≠ [] := by
    intro e
    rw [e] at h
    cases h
  rw [getLast_dropWhile hne, List.getLast?_reverse] at h
  exact head_dropWhile_false h

theorem pyStrip_last_not_space {s : List Char} {c : Char}
    (h : (pyStrip s).getLast? = some c) : isPySpace c = false := by
  unfold pyStrip at h
  rw [List.getLast?_reverse] at h
  exact head_dropWhile_false h

theorem pyStrip_eq_self {l : List Char} {a b : Char}
    (hh : l.head? = some a) (ha : isPySpace a = false)
    (hl : l.getLast? = some b) (hb : isPySpace b = false) : pyStrip l = l := by
  unfold pyStrip
  rw [dropWhile_eq_self_of_head hh ha]
  have hrev : l.reverse.head? = some b := by
    rw [List.head?_reverse]
    exact hl
  rw [dropWhile_eq_self_of_head hrev hb, List.reverse_reverse]

theorem listStartsWith_append (p l : List Char) :
    listStartsWith (p ++ l) p = true := by
  induction p with
  | nil => cases l <;> rfl
  | cons a t ih => simp [listStartsWith, ih]

theorem listStartsWith_head {l : List Char} {a : Char} {ps : List Char}
    (h : listStartsWith l (a :: ps) = true) : l.head? = some a := by
  cases l with
  | nil => simp [listStartsWith] at h
  | cons c cs =>
    simp only [listStartsWith, Bool.and_eq_true, beq_iff_eq] at h
    simp [h.1]

theorem listStartsWith_length {l p : List Char}
    (h : listStartsWith l p = true) : p.length ≤ l.length := by
  induction p generalizing l with
  | nil => simp
  | cons a ps ih =>
    cases l with
    | nil => simp [listStartsWith] at h
    | cons c cs =>
      simp only [listStartsWith, Bool.and_eq_true] at h
      simp only [List.length_cons]
      exact Nat.succ_le_succ (ih h.2)

theorem startsHttp_head {n : List Char} (h : startsHttpOrHttps n = true) :
    n.head? = some 'h' := by
  unfold startsHttpOrHttps at h
  rw [Bool.or_eq_true] at h
  cases h with
  | inl h =>
    have e : "http://".data = 'h' :: "ttp://".data := rfl
    rw [e] at h
    exact listStartsWith_head h
  | inr h =>
    have e : "https://".data = 'h' :: "ttps://".data := rfl
    rw [e] at h
    exact listStartsWith_head h

theorem startsHttp_length {n : List Char} (h : startsHttpOrHttps n = true) :
    7 ≤ n.length := by
  unfold startsHttpOrHttps at h
  rw [Bool.or_eq_true] at h
  cases h with
  | inl h =>
    have := listStartsWith_length h
    simpa using this
  | inr h =>
    have := listStartsWith_length h
    simp at this
    omega

theorem validate_success_inv {s n : List Char}
    (h : validateUrlCore s = (true, n)) :
    n = (if startsHttpOrHttps (pyStrip s) then pyStrip s
         else "http://".data ++ pyStrip s) ∧
    parseChecks n = (true, n) ∧ pyStrip s ≠ [] ∧ (pyStrip s).length ≤ 2048 := by
  unfold validateUrlCore at h
  split_ifs at h with h0 h1 h2 h3 h4
  · exact absurd (congrArg Prod.fst h) (by simp)
  · exact absurd (congrArg Prod.fst h) (by simp)
  · exact absurd (congrArg Prod.fst h) (by simp)
  · exact absurd (congrArg Prod.fst h) (by simp)
  · have hn := parseChecks_self h
    subst hn
    exact ⟨by rw [if_pos h4], h, fun e => h1 (by rw [e]; rfl),
      Nat.le_of_not_lt h3⟩
  · have hn := parseChecks_self h
    subst hn
    exact ⟨by rw [if_neg h4], h, fun e => h1 (by rw [e]; rfl),
      Nat.le_of_not_lt h3⟩

theorem takeWhile_append_of_not_all {p : Char → Bool} {l₁ l₂ : List Char}
    (h : l₁.any (fun c => !(p c)) = true) :
    (l₁ ++ l₂).takeWhile p = l₁.takeWhile p := by
  induction l₁ with
  | nil => simp at h
  | cons a t ih =>
    rw [List.cons_append, List.takeWhile_cons, List.takeWhile_cons]
    by_cases hp : p a = true
    · have ht : t.any (fun c => !(p c)) = true := by simpa [hp] using h
      rw [if_pos hp, if_pos hp, ih ht]
    · rw [if_neg hp, if_neg hp]

theorem getLast?_replicate_succ (n : Nat) (c : Char) :
    (List.replicate (n + 1) c).getLast? = some c := by
  induction n with
  | zero => rfl
  | succ k ih =>
    rw [List.replicate_succ, List.replicate_succ, List.getLast?_cons_cons,
      ← List.replicate_succ, ih]

theorem longInput_head : longInput.head? = some 'e' := rfl

theorem longInput_ne_nil : longInput ≠ [] := by
  intro e
  have h := longInput_head
  rw [e] at h
  cases h

theorem longInput_getLast : longInput.getLast? = some 'a' := by
  unfold longInput
  rw [List.getLast?_append_of_ne_nil _
    (by rw [show (2030 : Nat) = 2029 + 1 from rfl, List.replicate_succ]
        exact List.cons_ne_nil _ _)]
  rw [show (2030 : Nat) = 2029 + 1 from rfl]
  exact getLast?_replicate_succ 2029 'a'

theorem longInput_length : longInput.length = 2042 := by
  unfold longInput
  rw [List.length_append, List.length_replicate]
  rfl

theorem longInput_netloc :
    extractNetloc (("http://".data ++ longInput).drop 7) = "example.com".data := by
  have hdrop : ("http://".data ++ longInput).drop 7 = longInput := rfl
  rw [hdrop]
  unfold extractNetloc longInput
  rw [List.filter_append]
  rw [show "example.com/".data.filter (fun c => !isRemovedByte c) =
    "example.com/".data from by decide]
  rw [takeWhile_append_of_not_all (by decide)]
  decide

theorem longInput_scheme_netloc :
    parseSchemeNetloc ("http://".data ++ longInput) =
      ("http".data, "example.com".data) := by
  unfold parseSchemeNetloc
  rw [if_neg (by rw [show listStartsWith ("http://".data ++ longInput)
        "https://".data = false from rfl]; simp)]
  rw [if_pos (listStartsWith_append "http://".data longInput)]
  rw [longInput_netloc]

theorem longInput_checks :
    parseChecks ("http://".data ++ longInput) =
      (true, "http://".data ++ longInput) := by
  unfold parseChecks
  rw [longInput_scheme_netloc]
  rw [if_neg (by decide), if_neg (by decide), if_neg (by decide),
    if_neg (by decide), if_neg (by decide)]

theorem longInput_validate :
    validateUrlCore longInput = (true, "http://".data ++ longInput) := by
  have hstrip : pyStrip longInput = longInput :=
    pyStrip_eq_self longInput_head (by decide) longInput_getLast (by decide)
  unfold validateUrlCore
  rw [hstrip, longInput_length]
  rw [if_neg (by rw [show longInput.isEmpty = false from rfl]; simp)]
  rw [if_neg (by rw [show longInput.isEmpty = false from rfl]; simp)]
  rw [if_neg (by omega), if_neg (by omega)]
  rw [if_neg (by rw [show startsHttpOrHttps longInput = false from rfl]; simp)]
  exact longInput_checks

theorem longInput_revalidate :
    (validateUrlCore ("http://".data ++ longInput)).1 = false := by
  have hhead : ("http://".data ++ longInput).head? = some 'h' := rfl
  have hlast : ("http://".data ++ longInput).getLast? = some 'a' := by
    rw [List.getLast?_append_of_ne_nil _ longInput_ne_nil]
    exact longInput_getLast
  have hstrip : pyStrip ("http://".data ++ longInput) = "http://".data ++ longInput :=
    pyStrip_eq_self hhead (by decide) hlast (by decide)
  have hlen : ("http://".data ++ longInput).length = 2049 := by
    rw [List.length_append, longInput_length]
    rfl
  have hemp : ¬(("http://".data ++ longInput).isEmpty = true) := by
    rw [show ("http://".data ++ longInput).isEmpty = false from rfl]
    simp
  unfold validateUrlCore
  rw [hstrip, hlen]
  rw [if_neg hemp, if_neg hemp]
  rw [if_neg (by omega), if_pos (by omega)]

/-- C10 counterexample. `longInput` (2042 characters, no scheme) is
accepted, but its normalized form is 2049 characters long, so
re-validating the returned URL fails the length check: `validate_url` is
not idempotent at the 2048-character boundary. -/
theorem c10_counterexample :
    (validateUrlCore longInput).1 = true ∧
    (validateUrlCore (validateUrlCore longInput).2).1 = false := by
  constructor
  · rw [longInput_validate]
  · rw [longInput_validate]
    exact longInput_revalidate

/-- C10 (amended). If `validate_url(u)` returns `(True, n)` then `n`
starts with `http://` or `https://`, and — provided `n` is itself within
the 2048-character limit — `validate_url(n)` returns `(True, n)`
unchanged. (Unrestricted idempotence fails: prepending `http://` can push
a just-under-limit input over the length bound, see the counterexample.) -/
theorem c10_validate_idempotent : ∀ s n : List Char,
    validateUrlCore s = (true, n) →
    startsHttpOrHttps n = true ∧
    (n.length ≤ 2048 → validateUrlCore n = (true, n)) := by
  intro s n h
  obtain ⟨hn, hpc, hne, _⟩ := validate_success_inv h
  have hstart : startsHttpOrHttps n = true := by
    by_cases hc : startsHttpOrHttps (pyStrip s) = true
    · rw [hn, if_pos hc]
      exact hc
    · rw [hn, if_neg hc]
      unfold startsHttpOrHttps
      rw [listStartsWith_append]
      rfl
  refine ⟨hstart, ?_⟩
  intro hlen
  have hhead : n.head? = some 'h' := startsHttp_head hstart
  have h7 : 7 ≤ n.length := startsHttp_length hstart
  have hnempty : n ≠ [] := by
    intro e
    rw [e] at hhead
    cases hhead
  have hlast : ∃ b, n.getLast? = some b ∧ isPySpace b = false := by
    obtain ⟨b, hb⟩ := Option.isSome_iff_exists.mp (List.getLast?_isSome.mpr hne)
    by_cases hc : startsHttpOrHttps (pyStrip s) = true
    · refine ⟨b, ?_, pyStrip_last_not_space hb⟩
      rw [hn, if_pos hc]
      exact hb
    · refine ⟨b, ?_, pyStrip_last_not_space hb⟩
      rw [hn, if_neg hc, List.getLast?_append_of_ne_nil _ hne]
      exact hb
  obtain ⟨b, hbl, hbs⟩ := hlast
  have hstrip : pyStrip n = n :=
    pyStrip_eq_self hhead (by decide) hbl hbs
  unfold validateUrlCore
  rw [hstrip]
  rw [if_neg (by simp [List.isEmpty_iff, hnempty])]
  rw [if_neg (by simp [List.isEmpty_iff, hnempty])]
  rw [if_neg (by omega)]
  rw [if_neg (by omega)]
  rw [if_pos hstart]
  exact hpc

/-- Witness for C10: `example.com` normalizes to `http://example.com`,
which re-validates to itself. -/
theorem c10_validate_idempotent_witness :
    validateUrlCore "example.com".data = (true, "http://example.com".data) ∧
    startsHttpOrHttps "http://example.com".data = true ∧
    validateUrlCore "http://example.com".data =
      (true, "http://example.com".data) := by
  have h : validateUrlCore "example.com".data =
      (true, "http://example.com".data) := by decide
  exact ⟨h, (c10_validate_idempotent _ _ h).1,
    (c10_validate_idempotent _ _ h).2 (by decide)⟩
